import Mathlib

/-!
Verification of the `myphotos` inventory-reconciliation program.

The repository contains two near-duplicate program variants:

* the *composite-identity* variant keys the store by `(filename, size)`
  (table `photos` with nullable `local_path` / `remote_path` columns);
* the *relative-path* variant keys the store by `rel_path`
  (table `files` with boolean `on_local` / `on_remote` columns).

The SQLite tables are modelled as association lists of rows (the primary
key guarantees at most one row per key; the upserts below act on the
first matching row and append on a miss, which coincides with the SQL
semantics on any store reachable from the empty one).  SQL `NULL` is
modelled as `Option.none`; the queries' `IS NOT NULL AND != ''` tests
are translated literally.
-/

namespace MyPhotos

/-- A row of the `photos` table (composite-identity variant).
`local_path`/`remote_path` are nullable columns, hence `Option String`. -/
structure PhotoRow where
  filename : String
  size : Int
  local_path : Option String
  remote_path : Option String
deriving DecidableEq, Repr

namespace Composite

/-- Source `upsertLocal`: `INSERT INTO photos (filename, size, local_path) VALUES (?,?,?)
ON CONFLICT(filename, size) DO UPDATE SET local_path=excluded.local_path`.
A fresh row gets `remote_path = NULL`; on conflict only `local_path` is set. -/
def upsertLocal : List PhotoRow → String → Int → String → List PhotoRow
  | [], name, size, path => [⟨name, size, some path, none⟩]
  | r :: rs, name, size, path =>
    if r.filename = name ∧ r.size = size then
      { r with local_path := some path } :: rs
    else
      r :: upsertLocal rs name size path

/-- Source `upsertRemote`: symmetric to `upsertLocal`, touching only `remote_path`. -/
def upsertRemote : List PhotoRow → String → Int → String → List PhotoRow
  | [], name, size, path => [⟨name, size, none, some path⟩]
  | r :: rs, name, size, path =>
    if r.filename = name ∧ r.size = size then
      { r with remote_path := some path } :: rs
    else
      r :: upsertRemote rs name size path

/-- Lookup `SELECT * FROM photos WHERE filename = ? AND size = ?` (primary key). -/
def getRow (db : List PhotoRow) (name : String) (size : Int) : Option PhotoRow :=
  db.find? fun r => r.filename = name ∧ r.size = size

/-- The local-origin state visible at a key: the stored `local_path` when the
row exists and the column is non-NULL, `none` otherwise. -/
def localPathAt (db : List PhotoRow) (name : String) (size : Int) : Option String :=
  (getRow db name size).bind (·.local_path)

/-- The remote-origin state visible at a key. -/
def remotePathAt (db : List PhotoRow) (name : String) (size : Int) : Option String :=
  (getRow db name size).bind (·.remote_path)

/-- Test `local_path IS NOT NULL AND local_path != ''` — the "seen locally" test
used by the report queries. -/
def localObserved (r : PhotoRow) : Bool :=
  match r.local_path with
  | none => false
  | some p => p ≠ ""

/-- Test `remote_path IS NOT NULL AND remote_path != ''`. -/
def remoteObserved (r : PhotoRow) : Bool :=
  match r.remote_path with
  | none => false
  | some p => p ≠ ""

/-- The missing-from-remote query of `runReport`:
`SELECT local_path FROM photos WHERE local_path IS NOT NULL AND local_path != ''
AND (remote_path IS NULL OR remote_path = '')`. -/
def missingFromRemote (db : List PhotoRow) : List String :=
  (db.filter fun r => localObserved r ∧ ¬ remoteObserved r).map
    fun r => r.local_path.getD ""

end Composite

/-- A row of the `files` table (relative-path variant). -/
structure FileRow where
  rel_path : String
  on_local : Bool
  on_remote : Bool
deriving DecidableEq, Repr

namespace RelPath

/-- Source `upsertLocal`: `INSERT INTO files (rel_path, on_local, on_remote) VALUES (?, 1, 0)
ON CONFLICT(rel_path) DO UPDATE SET on_local=1`. -/
def upsertLocal : List FileRow → String → List FileRow
  | [], p => [⟨p, true, false⟩]
  | r :: rs, p =>
    if r.rel_path = p then
      { r with on_local := true } :: rs
    else
      r :: upsertLocal rs p

/-- Source `upsertRemote`: `INSERT ... VALUES (?, 0, 1) ON CONFLICT ... SET on_remote=1`. -/
def upsertRemote : List FileRow → String → List FileRow
  | [], p => [⟨p, false, true⟩]
  | r :: rs, p =>
    if r.rel_path = p then
      { r with on_remote := true } :: rs
    else
      r :: upsertRemote rs p

/-- Primary-key lookup in the `files` table. -/
def getRow (db : List FileRow) (p : String) : Option FileRow :=
  db.find? fun r => r.rel_path = p

/-- The `on_local` flag visible at a key (`DEFAULT 0`, so an absent row reads
as `false`). -/
def onLocalAt (db : List FileRow) (p : String) : Bool :=
  ((getRow db p).map (·.on_local)).getD false

/-- The `on_remote` flag visible at a key. -/
def onRemoteAt (db : List FileRow) (p : String) : Bool :=
  ((getRow db p).map (·.on_remote)).getD false

/-- The report query of the relative-path variant:
`SELECT rel_path FROM files WHERE on_local = 1 AND on_remote = 0`. -/
def missingFromRemote (db : List FileRow) : List String :=
  (db.filter fun r => r.on_local ∧ ¬ r.on_remote).map (·.rel_path)

end RelPath

/-- Go `strings.HasSuffix s pat`: byte-wise suffix test.  On (valid UTF-8)
strings byte equality coincides with character equality, so we compare the
character lists. -/
def hasSuffix (s pat : String) : Bool :=
  s.data.reverse.take pat.data.length == pat.data.reverse

/-- Source `isExtensionAllowed`: loops over the configured extensions and returns
`true` on the first `strings.HasSuffix(path, ext)` hit, `false` if none hits. -/
def isExtensionAllowed (path : String) (extensions : List String) : Bool :=
  extensions.any fun ext => hasSuffix path ext

/-- Go `strings.Split(s, "\t")` (splitting on a single tab; `Split "" = [""]`). -/
def splitTab (s : String) : List String :=
  go s.data []
where
  go : List Char → List Char → List String
    | [], acc => [String.mk acc.reverse]
    | c :: cs, acc =>
      if c = '\t' then String.mk acc.reverse :: go cs []
      else go cs (c :: acc)

/-- Base-10 digit run, as consumed by `strconv.ParseInt(s, 10, 64)`:
fails on an empty run or on any non-digit character. -/
def parseDigits : List Char → Option Nat
  | [] => none
  | cs => go cs 0
where
  go : List Char → Nat → Option Nat
    | [], acc => some acc
    | c :: cs, acc =>
      if '0' ≤ c ∧ c ≤ '9' then go cs (acc * 10 + (c.toNat - '0'.toNat))
      else none

/-- Go `strconv.ParseInt(s, 10, 64)`: optional sign, at least one digit,
base 10, and the value must fit in a signed 64-bit integer (the Go call
returns a non-nil error otherwise, which the scan loop treats as malformed). -/
def parseInt64 (s : String) : Option Int :=
  match s.data with
  | [] => none
  | '+' :: rest =>
    (parseDigits rest).bind fun n =>
      if n ≤ 2 ^ 63 - 1 then some (n : Int) else none
  | '-' :: rest =>
    (parseDigits rest).bind fun n =>
      if n ≤ 2 ^ 63 then some (-(n : Int)) else none
  | l =>
    (parseDigits l).bind fun n =>
      if n ≤ 2 ^ 63 - 1 then some (n : Int) else none

namespace Composite

/-- The state the remote-scan loop of `runAdd` mutates: the store and the
`count` of processed (merged) lines. -/
abbrev ScanState := List PhotoRow × Nat

/-- One iteration of the remote-scan loop (composite variant): split the line
on tabs; `continue` unless there are exactly 3 fields; `continue` if the size
field does not parse; `continue` if the filename fails the extension filter;
otherwise `upsertRemote` and increment `count`. -/
def processRemoteLine (extensions : List String) (st : ScanState) (line : String) :
    ScanState :=
  let parts := splitTab line
  if parts.length ≠ 3 then st
  else
    match parseInt64 (parts.getD 1 "") with
    | none => st
    | some size =>
      let name := parts.getD 0 ""
      let fullPath := parts.getD 2 ""
      if ¬ isExtensionAllowed name extensions then st
      else (upsertRemote st.1 name size fullPath, st.2 + 1)

/-- The whole remote-scan loop over the lines of the `ssh find` output. -/
def processRemoteLines (extensions : List String) (lines : List String)
    (db : List PhotoRow) : ScanState :=
  lines.foldl (processRemoteLine extensions) (db, 0)

/-- How the scan loop classifies one line, mirroring its branch order:
`malformed` (wrong field count or unparsable size — the spec's `ParseError`),
`filtered` (well-formed but the extension filter rejects it), or `merged`. -/
inductive LineOutcome where
  | malformed
  | filtered
  | merged
deriving DecidableEq, Repr

/-- Branch classifier of `processRemoteLine` (same conditions, same order). -/
def lineOutcome (extensions : List String) (line : String) : LineOutcome :=
  let parts := splitTab line
  if parts.length ≠ 3 then .malformed
  else
    match parseInt64 (parts.getD 1 "") with
    | none => .malformed
    | some _ =>
      if ¬ isExtensionAllowed (parts.getD 0 "") extensions then .filtered
      else .merged

/-- Number of lines of a listing the loop skips as malformed. -/
def malformedCount (extensions : List String) (lines : List String) : Nat :=
  (lines.filter fun l => lineOutcome extensions l = .malformed).length

/-- An in-memory filesystem entry for modelling `filepath.WalkDir`.
`infoErr` marks a file whose `d.Info()` call fails (e.g. it vanished or is a
broken symlink); `readErr` marks a directory whose entries cannot be read
(e.g. a permission error). -/
inductive FSEntry where
  | file (name : String) (size : Int) (infoErr : Bool)
  | dir (name : String) (readErr : Bool) (entries : List FSEntry)

mutual

/-- Go `filepath.WalkDir` with the local-scan callback of `runAdd` inlined.
The callback body is: `if err != nil { return err }` (which makes `WalkDir`
stop and `runAdd` call `log.Fatalf`); directories return `nil`; files are
filtered by extension, stat'ed (`d.Info()`), and `upsertLocal`-ed, any error
being returned to `WalkDir`.  `WalkDir` reports a directory read failure by
invoking the callback a second time for that directory with the error set,
and an error returned by the callback aborts the whole walk. -/
def walkEntry (extensions : List String) (parent : String) :
    FSEntry → ScanState → Except String ScanState
  | .file name size infoErr, st =>
    let path := parent ++ "/" ++ name
    if ¬ isExtensionAllowed path extensions then .ok st
    else if infoErr then .error ("info: " ++ path)
    else .ok (upsertLocal st.1 name size path, st.2 + 1)
  | .dir name readErr entries, st =>
    let path := parent ++ "/" ++ name
    if readErr then .error ("readdir: " ++ path)
    else walkEntries extensions path entries st

/-- Walk the entries of a directory in order, stopping at the first error. -/
def walkEntries (extensions : List String) (parent : String) :
    List FSEntry → ScanState → Except String ScanState
  | [], st => .ok st
  | e :: es, st =>
    match walkEntry extensions parent e st with
    | .error msg => .error msg
    | .ok st' => walkEntries extensions parent es st'

end

/-- The `-wrong_size` query of `runReport`:
`SELECT p1.local_path, p1.size, p2.remote_path, p2.size FROM photos p1
JOIN photos p2 ON p1.filename = p2.filename
WHERE p1.local_path IS NOT NULL AND p1.local_path != ''
AND (p1.remote_path IS NULL OR p1.remote_path = '')
AND p2.remote_path IS NOT NULL AND p2.remote_path != ''`. -/
def wrongSizeQuery (db : List PhotoRow) : List (String × Int × String × Int) :=
  db.flatMap fun p1 =>
    db.filterMap fun p2 =>
      if p1.filename = p2.filename ∧ localObserved p1 ∧ ¬ remoteObserved p1 ∧
          remoteObserved p2 then
        some (p1.local_path.getD "", p1.size, p2.remote_path.getD "", p2.size)
      else
        none

/-- The size-mismatch result set as the spec's words describe it (for
comparison with `wrongSizeQuery`, which is translated from the SQL): pairs
joining a record that is *local-only* with a *different-sized*, *remote-only*
record sharing the filename. -/
def wrongSizeSpec (db : List PhotoRow) : List (String × Int × String × Int) :=
  db.flatMap fun p1 =>
    db.filterMap fun p2 =>
      if p1.filename = p2.filename ∧ p1.size ≠ p2.size ∧
          localObserved p1 ∧ ¬ remoteObserved p1 ∧
          remoteObserved p2 ∧ ¬ localObserved p2 then
        some (p1.local_path.getD "", p1.size, p2.remote_path.getD "", p2.size)
      else
        none

end Composite

/-- Go `filepath.Dir` for clean slash-separated paths: everything up to the
last separator, trailing separators stripped; `"."` when there is no
separator, `"/"` when only the root remains.  (`filepath.Dir` additionally
runs `Clean`, which is the identity on the `.`- and `//`-free paths these
reports produce.) -/
def goDir (p : String) : String :=
  let kept := p.data.reverse.dropWhile fun c => c ≠ '/'
  let stripped := kept.dropWhile fun c => c = '/'
  if stripped = [] then (if kept = [] then "." else "/")
  else String.mk stripped.reverse

/-- Lexicographic order on character lists, comparing code points — the order
Go's byte-wise string comparison induces on (valid UTF-8) strings. -/
def lexLe : List Char → List Char → Bool
  | [], _ => true
  | _ :: _, [] => false
  | a :: as, b :: bs =>
    if a.toNat < b.toNat then true
    else if b.toNat < a.toNat then false
    else lexLe as bs

/-- Byte-wise (= code-point-wise) string order, as used by Go `sort.Strings`. -/
def strLe (a b : String) : Bool :=
  lexLe a.data b.data

/-- Sorting the collected key slice — the effect of Go's `sort.Strings`. -/
def sortStrings (l : List String) : List String :=
  l.insertionSort fun a b => strLe a b = true

/-- The default (non-verbose) report branch of `runReport`: group the
missing-from-remote paths by `filepath.Dir`, count per directory, and emit
the directories in `sort.Strings` order with their counts. -/
def groupByDir (paths : List String) : List (String × Nat) :=
  let dirs := paths.map goDir
  (sortStrings dirs.eraseDups).map fun k => (k, dirs.count k)

/-! ### Concrete test fixtures -/

/-- The reconciliation scenario of the spec (composite variant): record A is
merged from local only, record B from remote only, record C from both. -/
def dbABC : List PhotoRow :=
  Composite.upsertRemote (Composite.upsertLocal (Composite.upsertRemote
    (Composite.upsertLocal [] "fileA.jpg" 100 "/local/fileA.jpg")
    "fileB.jpg" 200 "/remote/fileB.jpg")
    "fileC.jpg" 300 "/local/fileC.jpg")
    "fileC.jpg" 300 "/remote/fileC.jpg"

/-- The reconciliation scenario, relative-path variant. -/
def dbABC2 : List FileRow :=
  RelPath.upsertRemote (RelPath.upsertLocal (RelPath.upsertRemote
    (RelPath.upsertLocal [] "fileA.jpg") "fileB.jpg") "fileC.jpg") "fileC.jpg"

/-- The size-mismatch scenario of the spec: a local `img.jpg` of size 100 and
a remote `img.jpg` of size 200 (distinct composite keys, so two rows). -/
def dbMismatch : List PhotoRow :=
  Composite.upsertRemote (Composite.upsertLocal [] "img.jpg" 100 "/local/img.jpg")
    "img.jpg" 200 "/remote/img.jpg"

/-- A store whose second `img.jpg` instance was seen on *both* origins:
row `(img.jpg, 100)` is local-only, row `(img.jpg, 200)` carries both a local
and a remote path. -/
def dbBoth : List PhotoRow :=
  Composite.upsertRemote (Composite.upsertLocal (Composite.upsertLocal []
    "img.jpg" 100 "/l/a") "img.jpg" 200 "/l/b") "img.jpg" 200 "/r/b"

/-- Three local-only records, two under `/base/dirX` and one under
`/base/dirY` (the spec's grouped-report scenario). -/
def dbGroup : List PhotoRow :=
  Composite.upsertLocal (Composite.upsertLocal (Composite.upsertLocal []
    "a.jpg" 1 "/base/dirX/a.jpg")
    "b.jpg" 2 "/base/dirX/b.jpg")
    "c.jpg" 3 "/base/dirY/c.jpg"

/-- A remote listing: three valid in-scope lines with one malformed line
(wrong field count — no tabs at all) in the middle. -/
def goodBadLines : List String :=
  ["a.jpg\t100\t/r/a.jpg", "b.jpg\t200\t/r/b.jpg", "not a valid line",
   "c.jpg\t300\t/r/c.jpg"]

/-- A remote listing: two valid in-scope lines around one malformed line
whose size field is non-numeric. -/
def badSizeLines : List String :=
  ["a.jpg\t100\t/r/a.jpg", "b.jpg\tXYZ\t/r/b.jpg", "c.jpg\t300\t/r/c.jpg"]

/-- The store produced by merging the three valid lines of `goodBadLines`. -/
def remoteDb3 : List PhotoRow :=
  [⟨"a.jpg", 100, none, some "/r/a.jpg"⟩,
   ⟨"b.jpg", 200, none, some "/r/b.jpg"⟩,
   ⟨"c.jpg", 300, none, some "/r/c.jpg"⟩]

/-- The store produced by merging the two valid lines of `badSizeLines`. -/
def remoteDb2 : List PhotoRow :=
  [⟨"a.jpg", 100, none, some "/r/a.jpg"⟩,
   ⟨"c.jpg", 300, none, some "/r/c.jpg"⟩]

/-- A directory tree whose middle entry is a subdirectory that cannot be
read; the entries before and after it are ordinary in-scope files. -/
def tree1 : Composite.FSEntry :=
  .dir "root" false
    [.file "a.jpg" 10 false,
     .dir "sub" true [],
     .file "b.jpg" 20 false]

end MyPhotos

/-! ## Helper lemmas -/

namespace MyPhotos

namespace Composite

theorem localPathAt_upsertRemote (db : List PhotoRow) (n : String) (z : Int) (p : String)
    (n' : String) (z' : Int) :
    localPathAt (upsertRemote db n z p) n' z' = localPathAt db n' z' := by
  induction db with
  | nil =>
    simp only [upsertRemote, localPathAt, getRow, List.find?]
    split <;> simp
  | cons r rs ih =>
    simp only [upsertRemote]
    split
    · simp only [localPathAt, getRow, List.find?]
      by_cases h' : r.filename = n' ∧ r.size = z' <;> simp [h']
    · simp only [localPathAt, getRow, List.find?]
      by_cases h' : r.filename = n' ∧ r.size = z'
      · simp [h']
      · simp only [h'] at *
        simpa [localPathAt, getRow] using ih

theorem remotePathAt_upsertLocal (db : List PhotoRow) (n : String) (z : Int) (p : String)
    (n' : String) (z' : Int) :
    remotePathAt (upsertLocal db n z p) n' z' = remotePathAt db n' z' := by
  induction db with
  | nil =>
    simp only [upsertLocal, remotePathAt, getRow, List.find?]
    split <;> simp
  | cons r rs ih =>
    simp only [upsertLocal]
    split
    · simp only [remotePathAt, getRow, List.find?]
      by_cases h' : r.filename = n' ∧ r.size = z' <;> simp [h']
    · simp only [remotePathAt, getRow, List.find?]
      by_cases h' : r.filename = n' ∧ r.size = z'
      · simp [h']
      · simp only [h'] at *
        simpa [remotePathAt, getRow] using ih

theorem upsertLocal_idem (db : List PhotoRow) (n : String) (z : Int) (p : String) :
    upsertLocal (upsertLocal db n z p) n z p = upsertLocal db n z p := by
  induction db with
  | nil => simp [upsertLocal]
  | cons r rs ih =>
    by_cases h : r.filename = n ∧ r.size = z
    · simp [upsertLocal, h]
    · simp [upsertLocal, h, ih]

theorem upsertLocal_upsertRemote_upsertLocal (db : List PhotoRow) (n : String) (z : Int)
    (p q : String) :
    upsertLocal (upsertRemote (upsertLocal db n z p) n z q) n z p =
      upsertRemote (upsertLocal db n z p) n z q := by
  induction db with
  | nil => simp [upsertLocal, upsertRemote]
  | cons r rs ih =>
    by_cases h : r.filename = n ∧ r.size = z
    · simp [upsertLocal, upsertRemote, h]
    · simp [upsertLocal, upsertRemote, h, ih]

theorem mem_missingFromRemote (db : List PhotoRow) (p : String) :
    p ∈ missingFromRemote db ↔
      ∃ r, r ∈ db ∧ localObserved r = true ∧ remoteObserved r = false ∧
        r.local_path = some p := by
  simp only [missingFromRemote, List.mem_map, List.mem_filter, decide_eq_true_eq,
    Bool.not_eq_true]
  constructor
  · rintro ⟨r, ⟨hr, hloc, hrem⟩, rfl⟩
    refine ⟨r, hr, hloc, hrem, ?_⟩
    cases hl : r.local_path with
    | none => simp [localObserved, hl] at hloc
    | some q => simp [hl]
  · rintro ⟨r, hr, hloc, hrem, hl⟩
    exact ⟨r, ⟨hr, hloc, hrem⟩, by simp [hl]⟩

theorem mem_wrongSizeQuery (db : List PhotoRow) (x : String × Int × String × Int) :
    x ∈ wrongSizeQuery db ↔
      ∃ p1, p1 ∈ db ∧ ∃ p2, p2 ∈ db ∧ p1.filename = p2.filename ∧
        localObserved p1 = true ∧ remoteObserved p1 = false ∧ remoteObserved p2 = true ∧
        x = (p1.local_path.getD "", p1.size, p2.remote_path.getD "", p2.size) := by
  simp only [wrongSizeQuery, List.mem_flatMap, List.mem_filterMap]
  constructor
  · rintro ⟨p1, h1, p2, h2, hfx⟩
    by_cases hc : p1.filename = p2.filename ∧ localObserved p1 = true ∧
        ¬ remoteObserved p1 = true ∧ remoteObserved p2 = true
    · rw [if_pos hc] at hfx
      obtain ⟨hname, hloc, hrem1, hrem2⟩ := hc
      have hx' := Option.some.inj hfx
      exact ⟨p1, h1, p2, h2, hname, hloc, by simpa using hrem1, hrem2, hx'.symm⟩
    · rw [if_neg hc] at hfx
      cases hfx
  · rintro ⟨p1, h1, p2, h2, hname, hloc, hrem1, hrem2, rfl⟩
    refine ⟨p1, h1, p2, h2, ?_⟩
    rw [if_pos ⟨hname, hloc, by simp [hrem1], hrem2⟩]

theorem wrongSizeQuery_size_ne (db : List PhotoRow)
    (hkeys : db.Pairwise fun a b => a.filename ≠ b.filename ∨ a.size ≠ b.size)
    (x : String × Int × String × Int) (hx : x ∈ wrongSizeQuery db) :
    x.2.1 ≠ x.2.2.2 := by
  obtain ⟨p1, h1, p2, h2, hname, hloc, hrem1, hrem2, rfl⟩ :=
    (mem_wrongSizeQuery db x).1 hx
  have hne : p1 ≠ p2 := by
    intro h
    rw [h] at hrem1
    rw [hrem1] at hrem2
    cases hrem2
  have hsym : Symmetric fun a b : PhotoRow => a.filename ≠ b.filename ∨ a.size ≠ b.size :=
    fun a b h => h.imp Ne.symm Ne.symm
  rcases hkeys.forall hsym h1 h2 hne with h | h
  · exact absurd hname h
  · simpa using h

theorem getRow_upsert_existing (db : List PhotoRow) (n : String) (z : Int) (r : PhotoRow)
    (p q : String) (h : getRow db n z = some r) :
    getRow (upsertLocal db n z p) n z = some { r with local_path := some p } ∧
    getRow (upsertRemote db n z q) n z = some { r with remote_path := some q } := by
  induction db with
  | nil => simp [getRow, List.find?] at h
  | cons a as ih =>
    by_cases ha : a.filename = n ∧ a.size = z
    · have hr : a = r := by
        simp [getRow, List.find?, ha] at h
        exact h
      subst hr
      constructor <;> simp [upsertLocal, upsertRemote, getRow, List.find?, ha]
    · simp only [getRow, List.find?] at h
      simp only [upsertLocal, upsertRemote, if_neg ha]
      rw [decide_eq_false ha] at h
      constructor <;>
        · simp only [getRow, List.find?, decide_eq_false ha]
          first
          | exact (ih h).1
          | exact (ih h).2

end Composite

namespace RelPath

theorem onLocalAt_upsertRemote (db : List FileRow) (q q' : String) :
    onLocalAt (upsertRemote db q) q' = onLocalAt db q' := by
  induction db with
  | nil =>
    simp only [upsertRemote, onLocalAt, getRow, List.find?]
    split <;> simp
  | cons r rs ih =>
    simp only [upsertRemote]
    split
    · simp only [onLocalAt, getRow, List.find?]
      by_cases h' : r.rel_path = q' <;> simp [h']
    · simp only [onLocalAt, getRow, List.find?]
      by_cases h' : r.rel_path = q'
      · simp [h']
      · simp only [h'] at *
        simpa [onLocalAt, getRow] using ih

theorem onRemoteAt_upsertLocal (db : List FileRow) (q q' : String) :
    onRemoteAt (upsertLocal db q) q' = onRemoteAt db q' := by
  induction db with
  | nil =>
    simp only [upsertLocal, onRemoteAt, getRow, List.find?]
    split <;> simp
  | cons r rs ih =>
    simp only [upsertLocal]
    split
    · simp only [onRemoteAt, getRow, List.find?]
      by_cases h' : r.rel_path = q' <;> simp [h']
    · simp only [onRemoteAt, getRow, List.find?]
      by_cases h' : r.rel_path = q'
      · simp [h']
      · simp only [h'] at *
        simpa [onRemoteAt, getRow] using ih

theorem upsertLocalRel_idem (db : List FileRow) (q : String) :
    upsertLocal (upsertLocal db q) q = upsertLocal db q := by
  induction db with
  | nil => simp [upsertLocal]
  | cons r rs ih =>
    by_cases h : r.rel_path = q
    · simp [upsertLocal, h]
    · simp [upsertLocal, h, ih]

theorem upsertLocalRel_upsertRemoteRel_upsertLocalRel (db : List FileRow) (q : String) :
    upsertLocal (upsertRemote (upsertLocal db q) q) q =
      upsertRemote (upsertLocal db q) q := by
  induction db with
  | nil => simp [upsertLocal, upsertRemote]
  | cons r rs ih =>
    by_cases h : r.rel_path = q
    · simp [upsertLocal, upsertRemote, h]
    · simp [upsertLocal, upsertRemote, h, ih]

theorem mem_missingFromRemoteRel (db : List FileRow) (p : String) :
    p ∈ missingFromRemote db ↔
      ∃ r, r ∈ db ∧ r.on_local = true ∧ r.on_remote = false ∧ r.rel_path = p := by
  simp only [missingFromRemote, List.mem_map, List.mem_filter, decide_eq_true_eq,
    Bool.not_eq_true]
  constructor
  · rintro ⟨r, ⟨hr, hloc, hrem⟩, rfl⟩
    exact ⟨r, hr, hloc, hrem, rfl⟩
  · rintro ⟨r, hr, hloc, hrem, rfl⟩
    exact ⟨r, ⟨hr, hloc, hrem⟩, rfl⟩

end RelPath

theorem lexLe_total (as bs : List Char) : lexLe as bs = true ∨ lexLe bs as = true := by
  induction as generalizing bs with
  | nil => left; rfl
  | cons a as ih =>
    cases bs with
    | nil => right; rfl
    | cons b bs =>
      by_cases h1 : a.toNat < b.toNat
      · left; simp [lexLe, h1]
      · by_cases h2 : b.toNat < a.toNat
        · right; simp [lexLe, h2]
        · rcases ih bs with h | h
          · left; simp [lexLe, h1, h2, h]
          · right; simp [lexLe, h1, h2, h]

theorem lexLe_trans (as bs cs : List Char) (h1 : lexLe as bs = true)
    (h2 : lexLe bs cs = true) : lexLe as cs = true := by
  induction as generalizing bs cs with
  | nil => rfl
  | cons a as ih =>
    cases bs with
    | nil => simp [lexLe] at h1
    | cons b bs =>
      cases cs with
      | nil => simp [lexLe] at h2
      | cons c cs =>
        by_cases hab : a.toNat < b.toNat
        · by_cases hbc : b.toNat < c.toNat
          · simp [lexLe, Nat.lt_trans hab hbc]
          · by_cases hcb : c.toNat < b.toNat
            · simp [lexLe, hbc, hcb] at h2
            · have hbceq : b.toNat = c.toNat :=
                Nat.le_antisymm (Nat.not_lt.mp hcb) (Nat.not_lt.mp hbc)
              rw [hbceq] at hab
              simp [lexLe, hab]
        · by_cases hba : b.toNat < a.toNat
          · simp [lexLe, hab, hba] at h1
          · have habeq : a.toNat = b.toNat :=
              Nat.le_antisymm (Nat.not_lt.mp hba) (Nat.not_lt.mp hab)
            simp only [lexLe, hab, hba, if_false,
              if_neg (by simp [habeq] : ¬ a.toNat < b.toNat)] at h1
            by_cases hbc : b.toNat < c.toNat
            · simp [lexLe, habeq ▸ hbc]
            · by_cases hcb : c.toNat < b.toNat
              · simp [lexLe, hbc, hcb] at h2
              · have hbceq : b.toNat = c.toNat :=
                  Nat.le_antisymm (Nat.not_lt.mp hcb) (Nat.not_lt.mp hbc)
                simp only [lexLe, hbc, hcb, if_neg, if_false] at h2
                have hac : ¬ a.toNat < c.toNat := by
                  rw [habeq, hbceq]; exact Nat.lt_irrefl _
                have hca : ¬ c.toNat < a.toNat := by
                  rw [habeq, hbceq]; exact Nat.lt_irrefl _
                simp only [lexLe, hac, hca, if_false]
                · exact ih bs cs h1 h2

theorem strLe_total (a b : String) : strLe a b = true ∨ strLe b a = true :=
  lexLe_total a.data b.data

theorem strLe_trans (a b c : String) (h1 : strLe a b = true) (h2 : strLe b c = true) :
    strLe a c = true :=
  lexLe_trans a.data b.data c.data h1 h2

theorem sortStrings_sorted (l : List String) :
    (sortStrings l).Sorted fun a b => strLe a b = true := by
  haveI : IsTotal String fun a b => strLe a b = true := ⟨strLe_total⟩
  haveI : IsTrans String fun a b => strLe a b = true := ⟨strLe_trans⟩
  exact List.sorted_insertionSort _ l

end MyPhotos

/-! ## Claims -/

namespace MyPhotos

/-- Claim C1: non-destructive merge.  In both variants, for every identity
key, an `upsertRemote` leaves the local-origin state (`local_path` /
`on_local`) visible at every key unchanged, and an `upsertLocal` leaves the
remote-origin state (`remote_path` / `on_remote`) unchanged — so whichever
order the two merges run in, neither erases the other origin's
previously-written fields. -/
theorem claim1_merge_nondestructive :
    (∀ (db : List PhotoRow) (n : String) (z : Int) (p : String) (n' : String) (z' : Int),
      Composite.localPathAt (Composite.upsertRemote db n z p) n' z' =
          Composite.localPathAt db n' z' ∧
        Composite.remotePathAt (Composite.upsertLocal db n z p) n' z' =
          Composite.remotePathAt db n' z') ∧
    (∀ (db : List FileRow) (q q' : String),
      RelPath.onLocalAt (RelPath.upsertRemote db q) q' = RelPath.onLocalAt db q' ∧
        RelPath.onRemoteAt (RelPath.upsertLocal db q) q' = RelPath.onRemoteAt db q') :=
  ⟨fun db n z p n' z' =>
    ⟨Composite.localPathAt_upsertRemote db n z p n' z',
     Composite.remotePathAt_upsertLocal db n z p n' z'⟩,
   fun db q q' =>
    ⟨RelPath.onLocalAt_upsertRemote db q q',
     RelPath.onRemoteAt_upsertLocal db q q'⟩⟩

/-- Claim C2: idempotence of merge.  In both variants, calling `upsertLocal`
twice with identical inputs leaves the store exactly as one call does, and an
`upsertLocal` replayed after an interleaved `upsertRemote` on the same key is
a no-op — the record converges to the same state regardless of call count or
interleaving with the remote merge. -/
theorem claim2_merge_idempotent :
    (∀ (db : List PhotoRow) (n : String) (z : Int) (p : String),
      Composite.upsertLocal (Composite.upsertLocal db n z p) n z p =
        Composite.upsertLocal db n z p) ∧
    (∀ (db : List PhotoRow) (n : String) (z : Int) (p q : String),
      Composite.upsertLocal
          (Composite.upsertRemote (Composite.upsertLocal db n z p) n z q) n z p =
        Composite.upsertRemote (Composite.upsertLocal db n z p) n z q) ∧
    (∀ (db : List FileRow) (q : String),
      RelPath.upsertLocal (RelPath.upsertLocal db q) q = RelPath.upsertLocal db q) ∧
    (∀ (db : List FileRow) (q : String),
      RelPath.upsertLocal (RelPath.upsertRemote (RelPath.upsertLocal db q) q) q =
        RelPath.upsertRemote (RelPath.upsertLocal db q) q) :=
  ⟨Composite.upsertLocal_idem, Composite.upsertLocal_upsertRemote_upsertLocal,
   RelPath.upsertLocalRel_idem, RelPath.upsertLocalRel_upsertRemoteRel_upsertLocalRel⟩

/-- Claim C3: the missing-from-remote query returns exactly the records whose
local-observed state is set and whose remote-observed state is unset (in both
variants), and on the store holding record A merged from local only, B from
remote only and C from both, it returns exactly A's local path with count 1. -/
theorem claim3_missing_from_remote_query :
    (∀ (db : List PhotoRow) (p : String),
      p ∈ Composite.missingFromRemote db ↔
        ∃ r, r ∈ db ∧ Composite.localObserved r = true ∧
          Composite.remoteObserved r = false ∧ r.local_path = some p) ∧
    (∀ (db : List FileRow) (p : String),
      p ∈ RelPath.missingFromRemote db ↔
        ∃ r, r ∈ db ∧ r.on_local = true ∧ r.on_remote = false ∧ r.rel_path = p) ∧
    Composite.missingFromRemote dbABC = ["/local/fileA.jpg"] ∧
    (Composite.missingFromRemote dbABC).length = 1 ∧
    RelPath.missingFromRemote dbABC2 = ["fileA.jpg"] ∧
    (RelPath.missingFromRemote dbABC2).length = 1 :=
  ⟨Composite.mem_missingFromRemote, RelPath.mem_missingFromRemoteRel,
   by decide, by decide, by decide, by decide⟩

/-- Claim C4 counterexample: the claim describes the join partner `p2` as
*remote-only*, but the SQL query only requires `p2.remote_path` to be set.
On `dbBoth` — where `(img.jpg, 200)` carries *both* a local and a remote
path — the query still returns a pair, while the spec's own characterization
(`wrongSizeSpec`) returns none. -/
theorem claim4_counterexample :
    Composite.wrongSizeQuery dbBoth = [("/l/a", 100, "/r/b", 200)] ∧
    Composite.wrongSizeSpec dbBoth = [] ∧
    Composite.wrongSizeQuery dbBoth ≠ Composite.wrongSizeSpec dbBoth ∧
    Composite.getRow dbBoth "img.jpg" 200 =
      some ⟨"img.jpg", 200, some "/l/b", some "/r/b"⟩ := by
  refine ⟨by decide, by decide, ?_, by decide⟩
  decide

/-- Claim C4 (amended): the mismatch query returns exactly the pairs
`(p1.local_path, p1.size, p2.remote_path, p2.size)` over row pairs sharing a
filename where `p1` is local-only and `p2` has a remote path recorded (`p2`
need not be remote-only); whenever the store's `(filename, size)` keys are
unique, the two sizes of a returned pair necessarily differ; on the store
with local `img.jpg` size 100 and remote `img.jpg` size 200 it returns
exactly one pair `(local:100, remote:200)`. -/
theorem claim4_wrong_size_query_amended :
    (∀ (db : List PhotoRow) (x : String × Int × String × Int),
      x ∈ Composite.wrongSizeQuery db ↔
        ∃ p1, p1 ∈ db ∧ ∃ p2, p2 ∈ db ∧ p1.filename = p2.filename ∧
          Composite.localObserved p1 = true ∧ Composite.remoteObserved p1 = false ∧
          Composite.remoteObserved p2 = true ∧
          x = (p1.local_path.getD "", p1.size, p2.remote_path.getD "", p2.size)) ∧
    (∀ db : List PhotoRow,
      (db.Pairwise fun a b => a.filename ≠ b.filename ∨ a.size ≠ b.size) →
        ∀ x ∈ Composite.wrongSizeQuery db, x.2.1 ≠ x.2.2.2) ∧
    Composite.wrongSizeQuery dbMismatch =
      [("/local/img.jpg", 100, "/remote/img.jpg", 200)] ∧
    (Composite.wrongSizeQuery dbMismatch).length = 1 :=
  ⟨Composite.mem_wrongSizeQuery,
   fun db hkeys x hx => Composite.wrongSizeQuery_size_ne db hkeys x hx,
   by decide, by decide⟩

/-- Witness for the hypotheses of `claim4_wrong_size_query_amended`: the
fixture `dbMismatch` has pairwise-distinct composite keys, the pair
`(local:100, remote:200)` is in its query result, and its sizes differ. -/
theorem claim4_wrong_size_query_amended_witness :
    (dbMismatch.Pairwise fun a b => a.filename ≠ b.filename ∨ a.size ≠ b.size) ∧
    ("/local/img.jpg", (100 : Int), "/remote/img.jpg", (200 : Int)) ∈
      Composite.wrongSizeQuery dbMismatch ∧
    (100 : Int) ≠ 200 :=
  ⟨by decide, by decide,
   claim4_wrong_size_query_amended.2.1 dbMismatch (by decide)
     ("/local/img.jpg", (100 : Int), "/remote/img.jpg", (200 : Int)) (by decide)⟩

/-- Claim C5: remote-scan fault tolerance.  On a listing of three valid
in-scope lines with one malformed line among them (wrong field count in
`goodBadLines`, non-numeric size in `badSizeLines`), the scan loop merges
exactly the valid records, reports that count, skips exactly one line as
malformed, and processes the lines after the malformed one (no abort). -/
theorem claim5_remote_scan_fault_tolerance :
    Composite.processRemoteLines [".jpg"] goodBadLines [] = (remoteDb3, 3) ∧
    remoteDb3.length = 3 ∧
    Composite.malformedCount [".jpg"] goodBadLines = 1 ∧
    goodBadLines.length = 4 ∧
    Composite.processRemoteLines [".jpg"] badSizeLines [] = (remoteDb2, 2) ∧
    remoteDb2.length = 2 ∧
    Composite.malformedCount [".jpg"] badSizeLines = 1 ∧
    badSizeLines.length = 3 :=
  ⟨by decide, by decide, by decide, by decide, by decide, by decide, by decide, by decide⟩

/-- Claim C6 counterexample: the local walk is *not* partial-failure
tolerant.  On `tree1`, whose middle entry is an unreadable subdirectory, the
walk callback returns the error, `WalkDir` stops, and the whole scan aborts
(`runAdd` then calls `log.Fatalf`) — the file listed after the failing entry
is never merged, contradicting "the entry is skipped and the scan
continues". -/
theorem claim6_counterexample :
    Composite.walkEntry [".jpg"] "" tree1 ([], 0) = .error "readdir: /root/sub" := by
  rfl

/-- Claim C6 (amended): a failure on any single entry aborts the entire
walk — if the entries before `e` walk successfully and `e` fails, the walk of
the whole listing returns `e`'s error, and the entries after `e` are never
processed. -/
theorem claim6_walk_aborts_amended :
    ∀ (exts : List String) (parent : String) (pre : List Composite.FSEntry)
      (e : Composite.FSEntry) (post : List Composite.FSEntry)
      (st st' : Composite.ScanState) (msg : String),
      Composite.walkEntries exts parent pre st = .ok st' →
      Composite.walkEntry exts parent e st' = .error msg →
      Composite.walkEntries exts parent (pre ++ e :: post) st = .error msg := by
  intro exts parent pre e post st st' msg hpre he
  induction pre generalizing st with
  | nil =>
    simp only [Composite.walkEntries, Except.ok.injEq] at hpre
    subst hpre
    simp [Composite.walkEntries, he]
  | cons a as ih =>
    cases h : Composite.walkEntry exts parent a st with
    | error m =>
      rw [Composite.walkEntries, h] at hpre
      cases hpre
    | ok st2 =>
      rw [Composite.walkEntries, h] at hpre
      rw [List.cons_append, Composite.walkEntries, h]
      exact ih st2 hpre

/-- Witness for `claim6_walk_aborts_amended` on `tree1`'s entries: walking
the first file succeeds, the unreadable subdirectory fails, and the walk of
the whole entry list returns that error. -/
theorem claim6_walk_aborts_amended_witness :
    Composite.walkEntries [".jpg"] "/root" [.file "a.jpg" 10 false] ([], 0) =
      .ok ([⟨"a.jpg", 10, some "/root/a.jpg", none⟩], 1) ∧
    Composite.walkEntry [".jpg"] "/root" (.dir "sub" true [])
      ([⟨"a.jpg", 10, some "/root/a.jpg", none⟩], 1) = .error "readdir: /root/sub" ∧
    Composite.walkEntries [".jpg"] "/root"
      ([.file "a.jpg" 10 false] ++ (Composite.FSEntry.dir "sub" true []) ::
        [.file "b.jpg" 20 false]) ([], 0) = .error "readdir: /root/sub" :=
  ⟨by rfl, by rfl,
   claim6_walk_aborts_amended [".jpg"] "/root" [.file "a.jpg" 10 false]
     (.dir "sub" true []) [.file "b.jpg" 20 false] ([], 0)
     ([⟨"a.jpg", 10, some "/root/a.jpg", none⟩], 1) "readdir: /root/sub"
     (by rfl) (by rfl)⟩

/-- Claim C7: extension filter semantics for the allow-list
`[".jpg", ".JPG", ".mp4"]` — `photo.jpg`, `photo.JPG` and
`/abs/path/photo.jpg` are accepted, `document.txt` and
`folder.jpg/real_file.txt` are rejected; in general the predicate is a
suffix match of the whole path string against any listed extension. -/
theorem claim7_extension_filter :
    isExtensionAllowed "photo.jpg" [".jpg", ".JPG", ".mp4"] = true ∧
    isExtensionAllowed "photo.JPG" [".jpg", ".JPG", ".mp4"] = true ∧
    isExtensionAllowed "/abs/path/photo.jpg" [".jpg", ".JPG", ".mp4"] = true ∧
    isExtensionAllowed "document.txt" [".jpg", ".JPG", ".mp4"] = false ∧
    isExtensionAllowed "folder.jpg/real_file.txt" [".jpg", ".JPG", ".mp4"] = false ∧
    ∀ (path : String) (extensions : List String),
      isExtensionAllowed path extensions = extensions.any fun e => hasSuffix path e :=
  ⟨by decide, by decide, by decide, by decide, by decide, fun _ _ => rfl⟩

/-- Claim C8: the default (non-verbose) missing-from-remote report groups
paths by containing directory with per-directory counts; on two local-only
records under `/base/dirX` and one under `/base/dirY` it yields
`(/base/dirX, 2)` then `(/base/dirY, 1)` with total count 3, and for every
input the emitted directories are sorted in byte-lexicographic order. -/
theorem claim8_grouped_report :
    Composite.missingFromRemote dbGroup =
      ["/base/dirX/a.jpg", "/base/dirX/b.jpg", "/base/dirY/c.jpg"] ∧
    groupByDir (Composite.missingFromRemote dbGroup) =
      [("/base/dirX", 2), ("/base/dirY", 1)] ∧
    (Composite.missingFromRemote dbGroup).length = 3 ∧
    ∀ paths : List String,
      ((groupByDir paths).map Prod.fst).Sorted fun a b => strLe a b = true := by
  refine ⟨by decide, by decide, by decide, ?_⟩
  intro paths
  unfold groupByDir
  simp only [List.map_map]
  have h : (Prod.fst ∘ fun k : String => (k, (paths.map goDir).count k)) = id := rfl
  rw [h, List.map_id]
  exact sortStrings_sorted _

/-- Claim C9 (implicit): the empty allow-list rejects every path, and
matching is case-sensitive — with allow-list `[".jpg"]` the paths ending in
`.JPG` or `.Jpg` are rejected while `.jpg` is accepted. -/
theorem claim9_case_sensitive_empty_allowlist :
    (∀ path : String, isExtensionAllowed path [] = false) ∧
    isExtensionAllowed "photo.JPG" [".jpg"] = false ∧
    isExtensionAllowed "photo.Jpg" [".jpg"] = false ∧
    isExtensionAllowed "photo.jpg" [".jpg"] = true :=
  ⟨fun _ => rfl, by decide, by decide, by decide⟩

/-- Claim C10 (implicit): last observation wins per origin.  If a key is
already present with row `r`, `upsertLocal` replaces the stored local path by
the newly supplied one while leaving every other field of `r` (in particular
`remote_path`) unchanged, and symmetrically for `upsertRemote`. -/
theorem claim10_last_observation_wins :
    ∀ (db : List PhotoRow) (n : String) (z : Int) (r : PhotoRow) (p q : String),
      Composite.getRow db n z = some r →
      Composite.getRow (Composite.upsertLocal db n z p) n z =
          some { r with local_path := some p } ∧
        Composite.getRow (Composite.upsertRemote db n z q) n z =
          some { r with remote_path := some q } :=
  fun db n z r p q h => Composite.getRow_upsert_existing db n z r p q h

/-- Witness for `claim10_last_observation_wins`: on a one-row store holding
`(a.jpg, 1)` with local path `/old` and remote path `/r`, a local re-merge
with `/new` yields local `/new` and keeps remote `/r`, and a remote re-merge
with `/rnew` yields remote `/rnew` and keeps local `/old`. -/
theorem claim10_last_observation_wins_witness :
    Composite.getRow [⟨"a.jpg", 1, some "/old", some "/r"⟩] "a.jpg" 1 =
      some ⟨"a.jpg", 1, some "/old", some "/r"⟩ ∧
    Composite.getRow
        (Composite.upsertLocal [⟨"a.jpg", 1, some "/old", some "/r"⟩] "a.jpg" 1 "/new")
        "a.jpg" 1 = some ⟨"a.jpg", 1, some "/new", some "/r"⟩ ∧
    Composite.getRow
        (Composite.upsertRemote [⟨"a.jpg", 1, some "/old", some "/r"⟩] "a.jpg" 1 "/rnew")
        "a.jpg" 1 = some ⟨"a.jpg", 1, some "/old", some "/rnew"⟩ :=
  ⟨by decide,
   (claim10_last_observation_wins [⟨"a.jpg", 1, some "/old", some "/r"⟩] "a.jpg" 1
     ⟨"a.jpg", 1, some "/old", some "/r"⟩ "/new" "/rnew" (by decide)).1,
   (claim10_last_observation_wins [⟨"a.jpg", 1, some "/old", some "/r"⟩] "a.jpg" 1
     ⟨"a.jpg", 1, some "/old", some "/r"⟩ "/new" "/rnew" (by decide)).2⟩

end MyPhotos
